import Mathlib

/-!
Verification of the fuzzy-search engine in
src/wezterm-gui/src/termwindow/EricWindow.rs.

The embedding follows the active (non-commented) code paths:
  - FuzzySearcher::search (lines 677-741): the worker thread body that
    scans the pane lines, scores each via fzf_get_score, keeps positive
    scores, stable-sorts by score descending, takes the first 100,
    extracts positions via fzf_get_positions (dropping entries whose
    positions pointer is null), and unconditionally overwrites the
    shared results vector.
  - EricWindow::start_fuzzy_search (lines 73-84): spawns a search only
    when a pane is available and the current selection is non-empty; it
    never touches the published results synchronously.
  - EricWindow::move_up / move_down (lines 144-164) and the Enter arm of
    Modal::key_down (lines 298-303): selection movement and acceptance
    over the commands list; an unchecked Rust index (commands[i]) is
    modelled as List.get?, with none standing for the panic.

Machine integers: fzf scores are C integers compared with > 0; no
overflow is exercised by any claim, so scores are modelled as Int.
Strings index at character granularity, as the source does through
CString byte buffers; the claims do not depend on the encoding.
-/

/-- Modelled from the spec: the external fzf matcher capability
(fzf_get_score / fzf_get_positions from the bundled native library,
whose code is not under src/).  score gives the match score (positive
means match); positions gives the matched character offsets, with none
standing for a null pointer returned by fzf_get_positions. -/
structure Matcher where
  score : String → String → Int
  positions : String → String → Option (List Nat)

/-- One result row, translated from struct EricRow (lines 33-38). -/
structure EricRow where
  brief : String
  rowIndex : Int
  first_y : Nat
  positions : List Nat
deriving DecidableEq, Repr

/-- The scoring scan of FuzzySearcher::search (lines 699-707): iterate the
pane lines with their stable row index (the enumerate loop, with the
accumulator row standing for _first_row + idx), keep (score, row, line)
whenever fzf_get_score is positive. -/
def scoredLines (m : Matcher) (sel : String) : Int → List String → List (Int × Int × String)
  | _, [] => []
  | row, line :: rest =>
    if 0 < m.score sel line then
      (m.score sel line, row, line) :: scoredLines m sel (row + 1) rest
    else
      scoredLines m sel (row + 1) rest

/-- The comparator of temp.sort_by (line 709): a.0.cmp(&b.0).reverse() is
non-Greater exactly when b.1 ≤ a.1, i.e. descending by score.  Rust
sort_by is a stable sort; a stable sort against a total comparator has a
unique result, so it is modelled by insertion sort. -/
@[reducible]
def scoreGe (a b : Int × Int × String) : Prop := b.1 ≤ a.1

instance : DecidableRel scoreGe := fun a b => inferInstanceAs (Decidable (b.1 ≤ a.1))

instance : IsTotal (Int × Int × String) scoreGe := ⟨fun a b => le_total b.1 a.1⟩

instance : IsTrans (Int × Int × String) scoreGe := ⟨fun _ _ _ h1 h2 => le_trans h2 h1⟩

/-- The sorted candidate list of FuzzySearcher::search (line 709). -/
def rankedMatches (m : Matcher) (sel : String) (firstRow : Int) (lines : List String) :
    List (Int × Int × String) :=
  List.insertionSort scoreGe (scoredLines m sel firstRow lines)

/-- The highlight-extraction loop of FuzzySearcher::search (lines 710-730):
for the first 100 sorted candidates, call fzf_get_positions; when the
returned pointer is non-null build an EricRow with brief = line text,
rowIndex = the recorded stable row, first_y = 0 and the copied positions;
a null pointer skips the candidate entirely. -/
def searchResults (m : Matcher) (sel : String) (firstRow : Int) (lines : List String) :
    List EricRow :=
  ((rankedMatches m sel firstRow lines).take 100).filterMap fun c =>
    match m.positions sel c.2.2 with
    | some ps => some ⟨c.2.2, c.2.1, 0, ps⟩
    | none => none

/-- The worker thread body of FuzzySearcher::search (lines 682-740) as a
publish decision: the thread reads the pane lines, and only when the
captured selection is non-empty does it overwrite the shared results
vector (there is no generation or cancellation check before the write).
none means the thread wrote nothing. -/
def searchPublish (m : Matcher) (sel : String) (firstRow : Int) (lines : List String) :
    Option (List EricRow) :=
  if sel.isEmpty then none else some (searchResults m sel firstRow lines)

/-- EricWindow::start_fuzzy_search (lines 73-84): given the currently
published results, the selection and whether a pane is available, return
the results as visible immediately after the call returns together with
whether a worker thread was spawned.  The call clones the selection,
and only when a pane exists and the selection is non-empty does it call
FuzzySearcher::search, which spawns a thread and returns at once; the
published results are not touched synchronously on any path. -/
def start_fuzzy_search (current : List EricRow) (selection : String) (paneAvailable : Bool) :
    List EricRow × Bool :=
  if paneAvailable then
    if selection.isEmpty then (current, false) else (current, true)
  else
    (current, false)

/-- A concrete matcher for witnesses: exact-equality scoring with a single
highlight position. -/
def mTest : Matcher :=
  ⟨fun q s => if q = s then 1 else 0, fun q s => if q = s then some [0] else none⟩

/-- A concrete matcher whose positions call always returns a null pointer. -/
def mNoPos : Matcher := ⟨fun _ _ => 1, fun _ _ => none⟩

/-- A concrete matcher that always matches and returns an empty positions
array (non-null pointer of size 0). -/
def mEmptyPos : Matcher := ⟨fun _ _ => 1, fun _ _ => some []⟩

/-- A concrete matcher returning positions 2 and 3. -/
def mLatePos : Matcher := ⟨fun _ _ => 1, fun _ _ => some [2, 3]⟩

example : searchResults mTest "a" 0 ["a", "b"] = [⟨"a", 0, 0, [0]⟩] := by decide

example : searchResults mTest "b" 0 ["a", "b"] = [⟨"b", 1, 0, [0]⟩] := by decide

example : searchResults mNoPos "a" 0 ["a", "b"] = [] := by decide

example : searchResults mLatePos "ab" 0 ["xaxb"] = [⟨"xaxb", 0, 0, [2, 3]⟩] := by decide

/-- The host pane as the worker thread sees it: get_dimensions/get_lines
(lines 684-686) deliver a first stable row and the scrollback lines. -/
structure PaneModel where
  firstRow : Int
  lines : List String
deriving DecidableEq

/-- The engine state relevant to corpus capture: the published results
vector together with an instrumentation counter of how many times
pane.get_lines has been called so far. -/
structure EngineState where
  results : List EricRow
  paneReads : Nat
deriving DecidableEq

/-- EricWindow::new (lines 54-71): builds the window state with empty
results; no pane is consulted and no corpus is captured (the constructor
only allocates empty vectors and the fzf slab). -/
def EricWindow_new : EngineState := ⟨[], 0⟩

/-- One complete run of the worker thread spawned by
FuzzySearcher::search (lines 682-740), against the pane state current at
the moment the thread runs: the thread always calls pane.get_lines
(line 686, before the emptiness test), then overwrites the shared
results exactly when the captured selection is non-empty. -/
def runSearchThread (m : Matcher) (st : EngineState) (pane : PaneModel) (sel : String) :
    EngineState :=
  ⟨match searchPublish m sel pane.firstRow pane.lines with
    | some ms => ms
    | none => st.results,
   st.paneReads + 1⟩

/-- The interleaving state for query submissions and worker publishes:
the published results vector and the queries of spawned worker threads
that have not yet run. -/
structure SysState where
  published : List EricRow
  pending : List String
deriving DecidableEq

/-- The initial state: fresh FuzzySearcher (line 671-675), no workers. -/
def initState : SysState := ⟨[], []⟩

/-- The synchronous effect of submitting a query (the key_down edit of
the selection followed by start_fuzzy_search, lines 73-84): a non-empty
query spawns a worker thread for itself; an empty query spawns
nothing.  Published results are untouched either way. -/
def submitQuery (st : SysState) (q : String) : SysState :=
  if q.isEmpty then st else ⟨st.published, st.pending ++ [q]⟩

/-- The interleaving semantics of the engine, for a fixed pane snapshot:
at any time the caller may submit a query, and any spawned worker thread
may run to completion.  A completing worker with a non-empty query
overwrites the published results unconditionally — FuzzySearcher::search
(lines 732-733) takes the write lock and assigns with no generation,
cancellation or staleness check. -/
inductive EngineStep (m : Matcher) (pane : PaneModel) : SysState → SysState → Prop
  | submit (st : SysState) (q : String) : EngineStep m pane st (submitQuery st q)
  | publish (st : SysState) (q : String) (hq : q ∈ st.pending) (hne : q.isEmpty = false) :
      EngineStep m pane st
        ⟨searchResults m q pane.firstRow pane.lines, st.pending.erase q⟩

/-- EricWindow::move_up (lines 144-150): decrement selected_row with
saturation, then read commands[row] (an unchecked Rust index) to set
top_row.  The result is (new selected_row, new top_row); none models the
out-of-bounds panic of commands[row]. -/
def move_up (selected_row : Nat) (commands : List (Int × EricRow)) : Option (Nat × Int) :=
  let row := selected_row - 1
  match commands.get? row with
  | some c => some (row, c.2.rowIndex)
  | none => none

/-- EricWindow::move_down (lines 152-164): only when selected_row + 1 is
below the list length is the row advanced, and the indexing that updates
top_row is guarded again by row < length.  The result is
(new selected_row, new top_row with none meaning top_row unchanged);
the outer some/none distinguishes normal return from an index panic. -/
def move_down (selected_row : Nat) (commands : List (Int × EricRow)) :
    Option (Nat × Option Int) :=
  if selected_row + 1 < commands.length then
    let row := selected_row + 1
    if row < commands.length then
      match commands.get? row with
      | some c => some (row, some c.2.rowIndex)
      | none => none
    else some (row, none)
  else some (selected_row, none)

/-- The Enter arm of Modal::key_down (lines 298-303): decrement
selected_row with saturation, then read commands[row] unchecked to
obtain y = rowIndex + 1 and x = first_y for the copy-overlay cursor.
The result is (acted index, y, x); none models the panic when the index
is out of range. -/
def enter_key (selected_row : Nat) (commands : List (Int × EricRow)) :
    Option (Nat × Int × Nat) :=
  let row := selected_row - 1
  match commands.get? row with
  | some c => some (row, c.2.rowIndex + 1, c.2.first_y)
  | none => none

/-- The ranking order the sorted candidate list actually satisfies:
strictly greater score first, equal scores ordered by strictly
ascending stable row. -/
def rankLex (a b : Int × Int × String) : Prop :=
  b.1 < a.1 ∨ (a.1 = b.1 ∧ a.2.1 < b.2.1)

lemma scoredLines_mem (m : Matcher) (sel : String) :
    ∀ (row : Int) (lines : List String) (e : Int × Int × String),
      e ∈ scoredLines m sel row lines →
      e.1 = m.score sel e.2.2 ∧ 0 < e.1 ∧ e.2.2 ∈ lines ∧ row ≤ e.2.1 := by
  intro row lines
  induction lines generalizing row with
  | nil => intro e he; simp [scoredLines] at he
  | cons line rest ih =>
    intro e he
    rw [scoredLines] at he
    by_cases hpos : 0 < m.score sel line
    · rw [if_pos hpos] at he
      rcases List.mem_cons.1 he with rfl | htail
      · exact ⟨rfl, hpos, List.mem_cons_self _ _, le_refl _⟩
      · obtain ⟨h1, h2, h3, h4⟩ := ih (row + 1) e htail
        exact ⟨h1, h2, List.mem_cons_of_mem _ h3, by omega⟩
    · rw [if_neg hpos] at he
      obtain ⟨h1, h2, h3, h4⟩ := ih (row + 1) e he
      exact ⟨h1, h2, List.mem_cons_of_mem _ h3, by omega⟩

lemma scoredLines_pairwise_row (m : Matcher) (sel : String) :
    ∀ (row : Int) (lines : List String),
      (scoredLines m sel row lines).Pairwise (fun a b => a.2.1 < b.2.1) := by
  intro row lines
  induction lines generalizing row with
  | nil => simp [scoredLines]
  | cons line rest ih =>
    rw [scoredLines]
    by_cases hpos : 0 < m.score sel line
    · rw [if_pos hpos]
      refine List.Pairwise.cons ?_ (ih (row + 1))
      intro e he
      have h := (scoredLines_mem m sel (row + 1) rest e he).2.2.2
      show row < e.2.1
      omega
    · rw [if_neg hpos]; exact ih (row + 1)

lemma scoredLines_length (m : Matcher) (sel : String) :
    ∀ (row : Int) (lines : List String),
      (scoredLines m sel row lines).length =
        lines.countP (fun l => decide (0 < m.score sel l)) := by
  intro row lines
  induction lines generalizing row with
  | nil => simp [scoredLines]
  | cons line rest ih =>
    rw [scoredLines, List.countP_cons]
    by_cases hpos : 0 < m.score sel line
    · rw [if_pos hpos]
      simp [hpos, ih (row + 1)]
    · rw [if_neg hpos]
      simp [hpos, ih (row + 1)]

lemma orderedInsert_pairwise_rankLex (x : Int × Int × String) :
    ∀ (l : List (Int × Int × String)), l.Sorted scoreGe → l.Pairwise rankLex →
      (∀ y ∈ l, x.2.1 < y.2.1) →
      (l.orderedInsert scoreGe x).Pairwise rankLex := by
  intro l
  induction l with
  | nil => intro _ _ _; exact List.pairwise_singleton rankLex x
  | cons y ys ih =>
    intro hs hp hx
    rw [List.orderedInsert]
    by_cases h : scoreGe x y
    · rw [if_pos h]
      refine List.Pairwise.cons ?_ hp
      intro z hz
      have hzle : z.1 ≤ x.1 := by
        rcases List.mem_cons.1 hz with rfl | hz2
        · exact h
        · exact le_trans (List.rel_of_sorted_cons hs z hz2) h
      rcases lt_or_eq_of_le hzle with hlt | heq
      · exact Or.inl hlt
      · exact Or.inr ⟨heq.symm, hx z hz⟩
    · rw [if_neg h]
      refine List.Pairwise.cons ?_
        (ih hs.of_cons hp.of_cons (fun z hz => hx z (List.mem_cons_of_mem _ hz)))
      intro z hz
      rcases (List.mem_orderedInsert scoreGe).1 hz with rfl | hz2
      · exact Or.inl (lt_of_not_le h)
      · exact List.rel_of_pairwise_cons hp hz2

lemma insertionSort_pairwise_rankLex :
    ∀ (l : List (Int × Int × String)), l.Pairwise (fun a b => a.2.1 < b.2.1) →
      (List.insertionSort scoreGe l).Pairwise rankLex := by
  intro l
  induction l with
  | nil => intro _; simp
  | cons x xs ih =>
    intro hl
    rw [List.insertionSort]
    refine orderedInsert_pairwise_rankLex x _
      (List.sorted_insertionSort scoreGe xs) (ih hl.of_cons) ?_
    intro y hy
    exact List.rel_of_pairwise_cons hl ((List.perm_insertionSort scoreGe xs).subset hy)

lemma rankedMatches_sorted (m : Matcher) (sel : String) (firstRow : Int) (lines : List String) :
    (rankedMatches m sel firstRow lines).Sorted scoreGe :=
  List.sorted_insertionSort scoreGe _

lemma rankedMatches_pairwise (m : Matcher) (sel : String) (firstRow : Int) (lines : List String) :
    (rankedMatches m sel firstRow lines).Pairwise rankLex :=
  insertionSort_pairwise_rankLex _ (scoredLines_pairwise_row m sel firstRow lines)

lemma mem_rankedMatches (m : Matcher) (sel : String) (firstRow : Int) (lines : List String)
    (e : Int × Int × String) (he : e ∈ rankedMatches m sel firstRow lines) :
    e ∈ scoredLines m sel firstRow lines :=
  (List.perm_insertionSort scoreGe _).subset he

lemma rankedMatches_length (m : Matcher) (sel : String) (firstRow : Int) (lines : List String) :
    (rankedMatches m sel firstRow lines).length =
      lines.countP (fun l => decide (0 < m.score sel l)) := by
  rw [rankedMatches, List.length_insertionSort]
  exact scoredLines_length m sel firstRow lines

lemma searchResults_mem_spec (m : Matcher) (sel : String) (firstRow : Int)
    (lines : List String) :
    ∀ r ∈ searchResults m sel firstRow lines,
      r.first_y = 0 ∧ m.positions sel r.brief = some r.positions ∧
      r.brief ∈ lines ∧ 0 < m.score sel r.brief ∧
      (m.score sel r.brief, r.rowIndex, r.brief) ∈
        (rankedMatches m sel firstRow lines).take 100 := by
  intro r hr
  obtain ⟨c, hc, hfc⟩ := List.mem_filterMap.1 hr
  rcases hpos : m.positions sel c.2.2 with _ | ps
  · rw [hpos] at hfc; exact absurd hfc (by simp)
  · rw [hpos] at hfc
    have hrc : r = ⟨c.2.2, c.2.1, 0, ps⟩ := by
      simpa using hfc.symm
    have hcs := scoredLines_mem m sel firstRow lines c
      (mem_rankedMatches m sel firstRow lines c ((List.take_sublist 100 _).subset hc))
    subst hrc
    refine ⟨rfl, ?_, hcs.2.2.1, ?_, ?_⟩
    · simp [hpos]
    · simpa [← hcs.1] using hcs.2.1
    · have : c = (m.score sel c.2.2, c.2.1, c.2.2) := by
        rw [← hcs.1]
      simpa [← this] using hc

lemma length_filterMap_of_isSome {α β : Type} (f : α → Option β) :
    ∀ l : List α, (∀ a ∈ l, (f a).isSome = true) →
      (l.filterMap f).length = l.length := by
  intro l
  induction l with
  | nil => intro _; rfl
  | cons a l ih =>
    intro h
    rcases hfa : f a with _ | b
    · have ha := h a (List.mem_cons_self a l)
      rw [hfa] at ha
      simp at ha
    · rw [List.filterMap_cons, hfa]
      simp [ih (fun x hx => h x (List.mem_cons_of_mem _ hx))]

/-- C2 counterexample: submitting an empty query does not clear the
published results — with one row published, the results right after
start_fuzzy_search returns are still non-empty (and no worker is
spawned), contradicting the claimed synchronous clear. -/
theorem empty_query_not_cleared_cx :
    (start_fuzzy_search [⟨"a", 0, 0, [0]⟩] "" true).1 ≠ [] ∧
    (start_fuzzy_search [⟨"a", 0, 0, [0]⟩] "" true).2 = false := by
  decide

/-- C2 (amended): submitting an empty query starts no background worker
and leaves the published ResultSet unchanged (it is not cleared). -/
theorem empty_query_no_worker (current : List EricRow) (sel : String) (pane : Bool)
    (h : sel.isEmpty = true) :
    start_fuzzy_search current sel pane = (current, false) := by
  rw [start_fuzzy_search]
  cases pane <;> simp [h]

/-- C2 witness: the amended statement at a concrete published row. -/
theorem empty_query_no_worker_witness :
    start_fuzzy_search [⟨"a", 0, 0, [0]⟩] "" true = ([⟨"a", 0, 0, [0]⟩], false) :=
  empty_query_no_worker [⟨"a", 0, 0, [0]⟩] "" true (by decide)

/-- C3 counterexample: a line that scores positively (and survives
truncation, being the only candidate) is dropped entirely when
fzf_get_positions returns a null pointer, instead of being published
with an empty highlight set. -/
theorem null_positions_dropped_cx :
    0 < mNoPos.score "a" "a" ∧ mNoPos.positions "a" "a" = none ∧
    searchResults mNoPos "a" 0 ["a"] = [] := by
  decide

/-- C3 (amended): a surviving scored match is published exactly when the
Matcher returns a (possibly empty) positions array for it, and the
published row carries exactly those positions; a null positions result
drops the match from the ResultSet. -/
theorem searchResults_positions_exact (m : Matcher) (sel : String) (firstRow : Int)
    (lines : List String) :
    ∀ r ∈ searchResults m sel firstRow lines,
      m.positions sel r.brief = some r.positions :=
  fun r hr => (searchResults_mem_spec m sel firstRow lines r hr).2.1

/-- C3 witness: the amended statement at a concrete published row. -/
theorem searchResults_positions_exact_witness :
    mTest.positions "a" "a" = some [0] :=
  searchResults_positions_exact mTest "a" 0 ["a"] ⟨"a", 0, 0, [0]⟩ (by decide)

/-- C4 counterexample: for a match whose highlight positions are [2, 3],
the published anchor offset (first_y) is 0, not the last position 3. -/
theorem anchor_not_last_position_cx :
    searchResults mLatePos "ab" 0 ["xaxb"] = [⟨"xaxb", 0, 0, [2, 3]⟩] ∧
    ([2, 3] : List Nat).getLast? = some 3 ∧ (0 : Nat) ≠ 3 := by
  decide

/-- C4 (amended): the anchor offset (first_y) of every published
MatchResult is always 0, regardless of the highlight positions. -/
theorem searchResults_anchor_zero (m : Matcher) (sel : String) (firstRow : Int)
    (lines : List String) :
    ∀ r ∈ searchResults m sel firstRow lines, r.first_y = 0 :=
  fun r hr => (searchResults_mem_spec m sel firstRow lines r hr).1

/-- C4 witness: the amended statement at a concrete published row. -/
theorem searchResults_anchor_zero_witness :
    (⟨"xaxb", 0, 0, [2, 3]⟩ : EricRow).first_y = 0 :=
  searchResults_anchor_zero mLatePos "ab" 0 ["xaxb"] ⟨"xaxb", 0, 0, [2, 3]⟩ (by decide)

/-- C5: every published ResultSet is sorted by score descending, with
ties broken by ascending stable row index (rowIndex = firstRow + line
index, so this is ascending original line-index order): the stable sort
against the reversed score comparator keeps the ascending scan order
within equal scores, and the take/filterMap steps preserve order. -/
theorem searchResults_sorted_by_score (m : Matcher) (sel : String) (firstRow : Int)
    (lines : List String) :
    (searchResults m sel firstRow lines).Pairwise (fun a b =>
      m.score sel b.brief < m.score sel a.brief ∨
      (m.score sel a.brief = m.score sel b.brief ∧ a.rowIndex < b.rowIndex)) := by
  rw [searchResults]
  refine List.pairwise_filterMap.2 ?_
  have hp : ((rankedMatches m sel firstRow lines).take 100).Pairwise rankLex :=
    (rankedMatches_pairwise m sel firstRow lines).sublist (List.take_sublist 100 _)
  refine hp.imp_of_mem ?_
  intro c c' hc hc' hlex b hb b' hb'
  have hcs := (scoredLines_mem m sel firstRow lines c
    (mem_rankedMatches m sel firstRow lines c ((List.take_sublist 100 _).subset hc))).1
  have hcs' := (scoredLines_mem m sel firstRow lines c'
    (mem_rankedMatches m sel firstRow lines c' ((List.take_sublist 100 _).subset hc'))).1
  rcases hpos : m.positions sel c.2.2 with _ | ps
  · rw [Option.mem_def, hpos] at hb
    simp at hb
  · rw [Option.mem_def, hpos] at hb
    rcases hpos' : m.positions sel c'.2.2 with _ | ps'
    · rw [Option.mem_def, hpos'] at hb'
      simp at hb'
    · rw [Option.mem_def, hpos'] at hb'
      simp at hb hb'
      subst hb hb'
      rcases hlex with hlt | ⟨heq, hrow⟩
      · exact Or.inl (by rw [← hcs, ← hcs']; exact hlt)
      · exact Or.inr ⟨by rw [← hcs, ← hcs', heq], hrow⟩

set_option maxRecDepth 4000 in
/-- C6 counterexample: with 150 corpus lines all scoring positively but
a Matcher whose positions call returns null, the published ResultSet is
empty rather than containing exactly the 100 highest-scoring entries. -/
theorem cap_not_reached_cx :
    (List.replicate 150 "a").countP (fun l => decide (0 < mNoPos.score "a" l)) = 150 ∧
    searchResults mNoPos "a" 0 (List.replicate 150 "a") = [] := by
  constructor
  · decide
  · rw [searchResults]
    refine List.filterMap_eq_nil_iff.2 ?_
    intro c hc
    simp [mNoPos]

/-- C6 (amended): the published ResultSet always has length at most 100;
when more than 100 lines score positively and the Matcher produces a
(possibly empty) positions array for every line, the length is exactly
100; and the 100 retained candidates all score at least as high as
every discarded candidate. -/
theorem searchResults_capped (m : Matcher) (sel : String) (firstRow : Int)
    (lines : List String) :
    (searchResults m sel firstRow lines).length ≤ 100 ∧
    (100 < lines.countP (fun l => decide (0 < m.score sel l)) →
      (∀ l ∈ lines, (m.positions sel l).isSome = true) →
      (searchResults m sel firstRow lines).length = 100) ∧
    (∀ a ∈ (rankedMatches m sel firstRow lines).take 100,
      ∀ b ∈ (rankedMatches m sel firstRow lines).drop 100, b.1 ≤ a.1) := by
  refine ⟨?_, ?_, ?_⟩
  · have h1 : (searchResults m sel firstRow lines).length ≤
        ((rankedMatches m sel firstRow lines).take 100).length :=
      List.length_filterMap_le _ _
    have h2 := List.length_take 100 (rankedMatches m sel firstRow lines)
    omega
  · intro hcount hpos
    rw [searchResults, length_filterMap_of_isSome]
    · rw [List.length_take, rankedMatches_length m sel firstRow lines]
      omega
    · intro c hc
      have hcs := scoredLines_mem m sel firstRow lines c
        (mem_rankedMatches m sel firstRow lines c ((List.take_sublist 100 _).subset hc))
      have hsome := hpos c.2.2 hcs.2.2.1
      rcases hp2 : m.positions sel c.2.2 with _ | ps
      · rw [hp2] at hsome
        simp at hsome
      · simp [hp2]
  · intro a ha b hb
    have hs := rankedMatches_sorted m sel firstRow lines
    rw [← List.take_append_drop 100 (rankedMatches m sel firstRow lines)] at hs
    exact (List.pairwise_append.1 hs).2.2 a ha b hb

set_option maxRecDepth 4000 in
/-- C6 witness: with 150 matching lines and a Matcher always yielding an
empty positions array, the amended exact-cap case gives length 100. -/
theorem searchResults_capped_witness :
    (searchResults mEmptyPos "a" 0 (List.replicate 150 "a")).length = 100 :=
  (searchResults_capped mEmptyPos "a" 0 (List.replicate 150 "a")).2.1
    (by decide) (by decide)

/-- C7: for a non-empty query, every published MatchResult refers to a
line whose Matcher score for the query is strictly positive — only
positively scoring lines enter the candidate list. -/
theorem searchResults_score_pos (m : Matcher) (sel : String) (firstRow : Int)
    (lines : List String) (_hsel : sel ≠ "") :
    ∀ r ∈ searchResults m sel firstRow lines, 0 < m.score sel r.brief :=
  fun r hr => (searchResults_mem_spec m sel firstRow lines r hr).2.2.2.1

/-- C7 witness: the statement at a concrete published row. -/
theorem searchResults_score_pos_witness : 0 < mTest.score "a" "a" :=
  searchResults_score_pos mTest "a" 0 ["a"] (by decide) ⟨"a", 0, 0, [0]⟩ (by decide)

/-- C8 counterexample: no corpus is captured at construction
(EricWindow::new performs zero pane reads), and each search task reads
the pane as it stands when the task runs — a search after the pane
content changed from ["a"] to ["b"] returns results for ["b"], so
searches do not scan a construction-time snapshot. -/
theorem corpus_reread_cx :
    EricWindow_new.paneReads = 0 ∧
    (runSearchThread mTest EricWindow_new ⟨0, ["a"]⟩ "a").results = [⟨"a", 0, 0, [0]⟩] ∧
    (runSearchThread mTest (runSearchThread mTest EricWindow_new ⟨0, ["a"]⟩ "a")
        ⟨0, ["b"]⟩ "a").results = [] ∧
    (runSearchThread mTest (runSearchThread mTest EricWindow_new ⟨0, ["a"]⟩ "a")
        ⟨0, ["b"]⟩ "a").paneReads = 2 := by
  decide

/-- C8 (amended): the engine captures no corpus at construction; every
search task performs its own pane read when it runs (one get_lines call
per task, even for an empty selection), and a task with a non-empty
selection publishes results computed from the pane content at that
moment. -/
theorem corpus_read_per_search (m : Matcher) (st : EngineState) (pane : PaneModel)
    (sel : String) :
    (runSearchThread m st pane sel).paneReads = st.paneReads + 1 ∧
    (sel.isEmpty = false →
      (runSearchThread m st pane sel).results =
        searchResults m sel pane.firstRow pane.lines) ∧
    EricWindow_new.paneReads = 0 := by
  refine ⟨rfl, ?_, rfl⟩
  intro h
  simp [runSearchThread, searchPublish, h]

/-- C8 witness: the amended statement at a concrete pane and query. -/
theorem corpus_read_per_search_witness :
    (runSearchThread mTest EricWindow_new ⟨0, ["a"]⟩ "a").results =
      searchResults mTest "a" 0 ["a"] :=
  (corpus_read_per_search mTest EricWindow_new ⟨0, ["a"]⟩ "a").2.1 (by decide)

/-- C9 counterexample: with an empty commands list, moving the selection
up performs the unchecked index commands[0] and goes out of bounds (the
Rust code panics), refuting the claim that movement never indexes
outside the list for every state including the empty one. -/
theorem move_up_empty_cx : move_up 0 [] = none := by decide

/-- C9 (amended): moving the selection down never indexes out of bounds
(its indexing is guarded by a length check, so it is a no-op at the end
or on an empty list), but moving up indexes commands[selected_row - 1]
unconditionally and stays in bounds exactly when that saturated
decremented index is below the list length — in particular it goes out
of bounds whenever the list is empty. -/
theorem move_selection_bounds (selected_row : Nat) (commands : List (Int × EricRow)) :
    (move_down selected_row commands).isSome = true ∧
    ((move_up selected_row commands).isSome = true ↔
      selected_row - 1 < commands.length) := by
  constructor
  · rw [move_down]
    by_cases h1 : selected_row + 1 < commands.length
    · rw [if_pos h1]
      rcases hg : commands.get? (selected_row + 1) with _ | c
      · rw [List.get?_eq_none] at hg
        omega
      · simp [h1, hg]
    · simp [h1]
  · constructor
    · intro h
      rcases hg : commands.get? (selected_row - 1) with _ | c
      · rw [move_up, hg] at h
        simp at h
      · obtain ⟨hlt, _⟩ := List.get?_eq_some.1 hg
        exact hlt
    · intro h
      rcases hg : commands.get? (selected_row - 1) with _ | c
      · rw [List.get?_eq_none] at hg
        omega
      · rw [move_up, hg]
        rfl

/-- C10: accepting with Enter first decrements the selected index with
saturation at 0 and then performs the unchecked index, so the entry
acted on sits at index max(selected_row - 1, 0); on an empty commands
list the unchecked index is out of range (the Rust code panics). -/
theorem enter_key_acts_on_decremented :
    (∀ selected_row : Nat, enter_key selected_row [] = none) ∧
    (∀ (selected_row : Nat) (commands : List (Int × EricRow)) (out : Nat × Int × Nat),
      enter_key selected_row commands = some out →
      (out.1 : Int) = max ((selected_row : Int) - 1) 0) := by
  constructor
  · intro n
    rw [enter_key]
    simp
  · intro n commands out h
    rw [enter_key] at h
    rcases hg : commands.get? (n - 1) with _ | c
    · rw [hg] at h
      simp at h
    · rw [hg] at h
      simp at h
      have h1 : out.1 = n - 1 := by rw [← h]
      rw [h1]
      omega

/-- C10 witness: with selected_row = 2 over a two-entry list, Enter acts
on index 1 = max(2 - 1, 0), producing y = rowIndex + 1 and x = first_y
of that entry. -/
theorem enter_key_acts_on_decremented_witness :
    enter_key 2 [(1, ⟨"a", 0, 0, []⟩), (1, ⟨"b", 5, 0, []⟩)] = some (1, 6, 0) ∧
    ((1 : Nat) : Int) = max ((2 : Int) - 1) 0 :=
  ⟨by decide,
   enter_key_acts_on_decremented.2 2 [(1, ⟨"a", 0, 0, []⟩), (1, ⟨"b", 5, 0, []⟩)]
     (1, 6, 0) (by decide)⟩

/-- C1: the worker threads publish with no generation, cancellation or
staleness check, so a stale task can overwrite results published by a
later submission.  Concretely: from the initial state, submitting "a"
then "b" (before either task runs) is a valid execution; then the task
for "b" publishes its results, and afterwards the still-pending task for
"a" publishes, leaving the ResultSet equal to the results for "a" even
though the later submission "b" had already published different
results — never a commingled set, but also not the latest query. -/
theorem stale_task_overwrites :
    Relation.ReflTransGen (EngineStep mTest ⟨0, ["a", "b"]⟩)
      initState ⟨[], ["a", "b"]⟩ ∧
    EngineStep mTest ⟨0, ["a", "b"]⟩
      ⟨[], ["a", "b"]⟩ ⟨[⟨"b", 1, 0, [0]⟩], ["a"]⟩ ∧
    EngineStep mTest ⟨0, ["a", "b"]⟩
      ⟨[⟨"b", 1, 0, [0]⟩], ["a"]⟩ ⟨[⟨"a", 0, 0, [0]⟩], []⟩ ∧
    ([⟨"a", 0, 0, [0]⟩] : List EricRow) ≠ [⟨"b", 1, 0, [0]⟩] ∧
    searchResults mTest "a" 0 ["a", "b"] = [⟨"a", 0, 0, [0]⟩] ∧
    searchResults mTest "b" 0 ["a", "b"] = [⟨"b", 1, 0, [0]⟩] := by
  refine ⟨?_, ?_, ?_, by decide, by decide, by decide⟩
  · have h1 : submitQuery initState "a" = ⟨[], ["a"]⟩ := by decide
    have h2 : submitQuery ⟨[], ["a"]⟩ "b" = ⟨[], ["a", "b"]⟩ := by decide
    exact Relation.ReflTransGen.head (h1 ▸ EngineStep.submit initState "a")
      (Relation.ReflTransGen.head (h2 ▸ EngineStep.submit ⟨[], ["a"]⟩ "b")
        Relation.ReflTransGen.refl)
  · exact EngineStep.publish ⟨[], ["a", "b"]⟩ "b" (by decide) (by decide)
  · exact EngineStep.publish ⟨[⟨"b", 1, 0, [0]⟩], ["a"]⟩ "a" (by decide) (by decide)
